import Mathlib

/-!
Verification of the rate-limiting strategies and middleware boundary logic of
the `shot-limit` / `tower-shot` repository, as a shallow embedding.

Conventions of the embedding:
* All times are nanoseconds since the limiter's anchor, as `ℕ` (the code uses
  `u64`; none of the claims exercise wraparound at 2^64).
* The code runs under arbitrary concurrency with CAS loops; the claims below
  are about sequential call sequences, so every CAS succeeds and a `process`
  call is a pure function `State → now → Outcome × State`.
* `ControlFlow::Continue(())` is `Outcome.Admit`;
  `ControlFlow::Break(Reason::Overloaded { retry_after })` is
  `Outcome.Reject retry_after` with the hint in nanoseconds.
* The code computes the token-bucket refill rate and the sliding-window weight
  in `f64`. The embedding carries the exact rational instead (for the bucket,
  the numerator/denominator pair `increment * 10^9 / period_ns`). On every
  configuration appearing in the claims these `f64` computations are exact
  (all intermediate values are integers or dyadic-exact quotients well below
  2^53), so the rational model coincides with the compiled arithmetic there.
-/

/-- Result of `Strategy::process`: `Admit` is `ControlFlow::Continue(())`,
`Reject r` is `ControlFlow::Break(Reason::Overloaded { retry_after: r })`
with `r` in nanoseconds. -/
inductive Outcome where
  | Admit : Outcome
  | Reject (retry_after : ℕ) : Outcome
deriving DecidableEq, Repr

namespace ShotLimit

/-- State of `shot-limit/src/fixed_window.rs::FixedWindow`: immutable
`capacity` and `interval`, atomics `remaining` and `expires`. -/
structure FixedWindow where
  capacity : ℕ
  remaining : ℕ
  expires : ℕ
  interval : ℕ
deriving DecidableEq, Repr

/-- Constructor `FixedWindow::new` (anchor-relative clock starts at 0):
`remaining = capacity`, `expires = interval_ns`. -/
def FixedWindow.new (capacity interval : ℕ) : FixedWindow :=
  { capacity := capacity, remaining := capacity, expires := interval, interval := interval }

/-- One sequential `FixedWindow::process` call (fixed_window.rs lines 32-71):
rotate on `now > expires` to the aligned boundary `(now / interval + 1) * interval`
resetting `remaining` to `capacity`, then try to decrement `remaining`;
on failure reject with `expires.saturating_sub(now)`. -/
def FixedWindow.process (s : FixedWindow) (now : ℕ) : Outcome × FixedWindow :=
  let rotated : FixedWindow :=
    if now > s.expires then
      { s with expires := (now / s.interval + 1) * s.interval, remaining := s.capacity }
    else s
  if rotated.remaining > 0 then
    (Outcome.Admit, { rotated with remaining := rotated.remaining - 1 })
  else
    (Outcome.Reject (rotated.expires - now), rotated)

/-- State of `shot-limit/src/sliding_window.rs::SlidingWindow`. -/
structure SlidingWindow where
  capacity : ℕ
  period_ns : ℕ
  current_count : ℕ
  previous_count : ℕ
  current_window_start : ℕ
deriving DecidableEq, Repr

/-- Constructor `SlidingWindow::new`: counters 0, window start 0. -/
def SlidingWindow.new (capacity period_ns : ℕ) : SlidingWindow :=
  { capacity := capacity, period_ns := period_ns, current_count := 0,
    previous_count := 0, current_window_start := 0 }

/-- The rotation block of `SlidingWindow::process` (sliding_window.rs lines
52-80), winner path of the CAS: when `now ≥ start + period`, re-anchor the
window start to the aligned boundary `(now / period) * period`; `previous`
becomes the old `current` unless at least two periods elapsed (then 0), and
`current` is reset to 0. -/
def SlidingWindow.rotate (s : SlidingWindow) (now : ℕ) : SlidingWindow :=
  if now ≥ s.current_window_start + s.period_ns then
    let new_window_start := now / s.period_ns * s.period_ns
    let prev_val := if now ≥ s.current_window_start + 2 * s.period_ns then 0
      else s.current_count
    { s with previous_count := prev_val, current_count := 0,
             current_window_start := new_window_start }
  else s

/-- The weighted estimate of `SlidingWindow::process` (lines 82-88):
`weight = (period - elapsed_in_window) / period` (computed in f64 by the code,
exact rational here), `estimate = floor(previous * weight) + current`. -/
def SlidingWindow.estimate (s : SlidingWindow) (now : ℕ) : ℕ :=
  let elapsed_in_window := now - s.current_window_start
  let weight : ℚ := ((s.period_ns - elapsed_in_window : ℕ) : ℚ) / (s.period_ns : ℚ)
  (⌊(s.previous_count : ℚ) * weight⌋).toNat + s.current_count

/-- One sequential `SlidingWindow::process` call (lines 48-105): rotate,
compute the weighted estimate, admit (incrementing `current`) iff
`estimate < capacity`; otherwise reject with
`ceil((estimate - capacity) / capacity * period)` when that excess is
positive, else 0. -/
def SlidingWindow.process (s0 : SlidingWindow) (now : ℕ) : Outcome × SlidingWindow :=
  let s := s0.rotate now
  let est := s.estimate now
  if est < s.capacity then
    (Outcome.Admit, { s with current_count := s.current_count + 1 })
  else
    let missing := est - s.capacity
    let retry_after_ns : ℕ :=
      if missing > 0 then (⌈((missing : ℚ) / (s.capacity : ℚ)) * (s.period_ns : ℚ)⌉).toNat
      else 0
    (Outcome.Reject retry_after_ns, s)

/-- Scale of `TokenBucket::UNITS_SCALE`: one whole token in units. -/
def UNITS_SCALE : ℕ := 1000000000

/-- State of `shot-limit/src/token_bucket.rs::TokenBucket`. The code stores
`refill_rate_units_per_ns = increment * 10^9 / period_ns` as an `f64`; the
embedding carries the exact numerator/denominator pair instead (see the file
header note on f64 exactness). -/
structure TokenBucket where
  capacity_units : ℕ
  rate_num : ℕ
  rate_den : ℕ
  units : ℕ
  last_update_ns : ℕ
deriving DecidableEq, Repr

/-- Constructor `TokenBucket::new`: full bucket, rate `increment * 10^9 /
period_ns` (rate 0 when the period is zero), `last_update_ns = 0`. -/
def TokenBucket.new (capacity increment period_ns : ℕ) : TokenBucket :=
  { capacity_units := capacity * UNITS_SCALE,
    rate_num := if period_ns > 0 then increment * UNITS_SCALE else 0,
    rate_den := if period_ns > 0 then period_ns else 1,
    units := capacity * UNITS_SCALE,
    last_update_ns := 0 }

/-- One sequential `TokenBucket::process` call (token_bucket.rs lines 62-110):
credit `floor(elapsed * rate)` units capped at capacity; reject (pure read)
with `ceil(missing / rate)` ns — or the 1-second constant when the rate is
zero — if below one whole token; otherwise consume one token and advance
`last_update_ns`. -/
def TokenBucket.process (s : TokenBucket) (now : ℕ) : Outcome × TokenBucket :=
  let elapsed := now - s.last_update_ns
  let refill := elapsed * s.rate_num / s.rate_den
  let new_units := min s.capacity_units (s.units + refill)
  if new_units < UNITS_SCALE then
    let missing_units := UNITS_SCALE - new_units
    let wait_ns :=
      if s.rate_num > 0 then (missing_units * s.rate_den + s.rate_num - 1) / s.rate_num
      else UNITS_SCALE
    (Outcome.Reject wait_ns, s)
  else
    (Outcome.Admit, { s with units := new_units - UNITS_SCALE, last_update_ns := now })

/-- State of `shot-limit/src/gcra.rs::Gcra`. -/
structure Gcra where
  emission_interval_ns : ℕ
  delay_tolerance_ns : ℕ
  tat : ℕ
deriving DecidableEq, Repr

/-- Constructor `Gcra::with_clock` (gcra.rs lines 28-39):
`emission_interval_ns = period_ns / limit` (integer division),
`delay_tolerance_ns = period_ns`, `tat = 0`. -/
def Gcra.with_clock (limit period_ns : ℕ) : Gcra :=
  { emission_interval_ns := period_ns / limit,
    delay_tolerance_ns := period_ns,
    tat := 0 }

/-- One sequential `Gcra::process` call (gcra.rs lines 71-99):
`arrival = max(now, tat)`, `next_tat = arrival + emission_interval`;
reject (pure read) with `next_tat - (now + delay_tolerance)` iff
`next_tat > now + delay_tolerance` (strict), else store `next_tat`. -/
def Gcra.process (s : Gcra) (now : ℕ) : Outcome × Gcra :=
  let arrival := if now > s.tat then now else s.tat
  let next_tat := arrival + s.emission_interval_ns
  if next_tat > now + s.delay_tolerance_ns then
    (Outcome.Reject (next_tat - (now + s.delay_tolerance_ns)), s)
  else
    (Outcome.Admit, { s with tat := next_tat })

end ShotLimit

/-- State after `n` sequential calls of a step function (the step consumes a
state and yields an outcome and the successor state). -/
def stateAfter {σ : Type} (step : σ → Outcome × σ) : ℕ → σ → σ
  | 0, s => s
  | n + 1, s => (step (stateAfter step n s)).2

/-- Outcome of the `(i+1)`-th sequential call (0-indexed `i`). -/
def outcomeAt {σ : Type} (step : σ → Outcome × σ) (s : σ) (i : ℕ) : Outcome :=
  (step (stateAfter step i s)).1

/-- Outcomes of sequential calls made at the given list of clock readings. -/
def runTimes {σ : Type} (step : σ → ℕ → Outcome × σ) : List ℕ → σ → List Outcome
  | [], _ => []
  | t :: ts, s => (step s t).1 :: runTimes step ts (step s t).2

/-- State after sequential calls made at the given list of clock readings. -/
def stateAfterTimes {σ : Type} (step : σ → ℕ → Outcome × σ) : List ℕ → σ → σ
  | [], s => s
  | t :: ts, s => stateAfterTimes step ts (step s t).2

namespace RateLimitingLib

/-- State of `rate-limiting-lib/src/sliding_window.rs::SlidingWindow` (the
rolling-boundary variant): it stores the END of the current window in
`expires`. -/
structure SlidingWindow where
  capacity : ℕ
  current : ℕ
  previous : ℕ
  interval : ℕ
  expires : ℕ
deriving DecidableEq, Repr

/-- Constructor `SlidingWindow::new`: counters 0, `expires = interval`. -/
def SlidingWindow.new (capacity interval : ℕ) : SlidingWindow :=
  { capacity := capacity, current := 0, previous := 0, interval := interval,
    expires := interval }

/-- The rotation block of `SlidingWindow::process`
(rate-limiting-lib/src/sliding_window.rs lines 27-49), winner path of the
CAS: when `now ≥ expires`, advance `expires` by
`((now - expires) / interval + 1) * interval`; with exactly one interval
passed, `previous` takes the old `current`, otherwise both counters reset. -/
def SlidingWindow.rotate (s : SlidingWindow) (now : ℕ) : SlidingWindow :=
  if now ≥ s.expires then
    let elapsed := now - s.expires
    let intervals_passed := elapsed / s.interval + 1
    let next_expires := s.expires + intervals_passed * s.interval
    if intervals_passed = 1 then
      { s with previous := s.current, current := 0, expires := next_expires }
    else
      { s with previous := 0, current := 0, expires := next_expires }
  else s

/-- The weight/estimate block of `SlidingWindow::process` (lines 51-61):
`progress = min(time_into_window / interval, 1)`, `weight = 1 - progress`,
`guesstimate = previous * weight + current` (computed in f64 by the code,
exact rational here). -/
def SlidingWindow.guesstimate (s : SlidingWindow) (now : ℕ) : ℚ :=
  let window_start := s.expires - s.interval
  let time_into_window := now - window_start
  let progress : ℚ := min ((time_into_window : ℚ) / (s.interval : ℚ)) 1
  let weight : ℚ := 1 - progress
  (s.previous : ℚ) * weight + (s.current : ℚ)

/-- The function `SlidingWindow::calculate_retry_after` (lines 84-102): with
no previous count, wait for the current window to expire entirely
(`expires - now`); otherwise wait `excess * interval / previous` (truncated
to whole nanoseconds) plus a 1 ms buffer. -/
def SlidingWindow.calculate_retry_after (s : SlidingWindow) (guesstimate : ℚ)
    (now expires : ℕ) : ℕ :=
  if s.previous = 0 then expires - now
  else
    let excess : ℚ := guesstimate - (s.capacity : ℚ)
    let nanos_to_wait : ℕ := (⌊excess * (s.interval : ℚ) / (s.previous : ℚ)⌋).toNat
    nanos_to_wait + 1000000

/-- One sequential `SlidingWindow::process` call (lines 23-69): rotate,
compute the weighted guesstimate, reject with the `calculate_retry_after`
hint iff `guesstimate ≥ capacity`, else increment `current` and allow. -/
def SlidingWindow.process (s0 : SlidingWindow) (now : ℕ) : Outcome × SlidingWindow :=
  let s := s0.rotate now
  let g := s.guesstimate now
  if g ≥ (s.capacity : ℚ) then
    (Outcome.Reject (s.calculate_retry_after g now s.expires), s)
  else
    (Outcome.Admit, { s with current := s.current + 1 })

end RateLimitingLib

/-- Modelled from the spec: the retry-after hint contract of spec §4.4 for
the SlidingWindow, stated on the state the rejecting decision saw
(post-rotation). If `previous` is zero the hint must equal the time until
the current window ends (`window_end - now`); otherwise it must exceed
`(estimate - capacity) * period / previous` by a positive buffer (so in
particular it is nonzero). -/
def spec44Hint (previous capacity : ℕ) (estimate : ℚ) (period window_end now hint : ℕ) : Prop :=
  if previous = 0 then hint = window_end - now
  else ((estimate - (capacity : ℚ)) * (period : ℚ) / (previous : ℚ) < (hint : ℚ)) ∧ 0 < hint

namespace TowerShot

/-- The unified error taxonomy of `tower-shot/src/error.rs::ShotError`
(`retry_after` in nanoseconds, `inner` carrying the Display rendering of the
downstream error). -/
inductive ShotError where
  | timeout : ShotError
  | overloaded : ShotError
  | rateLimited (retry_after : ℕ) : ShotError
  | inner (msg : String) : ShotError
deriving DecidableEq, Repr

/-- A boxed error flowing through the tower stack: either a `ShotError`, one
of the two foreign error types the boundary mappings test for with
downcasts (`tower::timeout::error::Elapsed`,
`tower::load_shed::error::Overloaded`), or any other downstream error
(carried by its Display rendering). -/
inductive BoxError where
  | shot (e : ShotError) : BoxError
  | towerElapsed : BoxError
  | towerOverloaded : BoxError
  | foreign (msg : String) : BoxError
deriving DecidableEq, Repr

/-- The map_overloaded function of `tower-shot/src/utils.rs` (lines 75-81):
re-wrap only the load-shed `Overloaded` type as `ShotError::Overloaded`;
every other error — including `ShotError::RateLimited` — passes through
unchanged. -/
def map_overloaded : BoxError → BoxError
  | BoxError.towerOverloaded => BoxError.shot ShotError.overloaded
  | e => e

/-- The error-mapping closure at the outer boundary of
`ManagedLatencyLayer::layer` (tower-shot/src/managed_layer.rs lines 143-155,
identical in latency_layer.rs): `Elapsed` to `Timeout`, load-shed
`Overloaded` to `Overloaded`, any `ShotError` propagated as is, anything
else wrapped as `Inner` of its rendering. -/
def latency_map_err : BoxError → BoxError
  | BoxError.towerElapsed => BoxError.shot ShotError.timeout
  | BoxError.towerOverloaded => BoxError.shot ShotError.overloaded
  | BoxError.shot e => BoxError.shot e
  | BoxError.foreign msg => BoxError.shot (ShotError.inner msg)

/-- What a single `RateLimitService::poll_ready` attempt resolves to once the
limiter has been consulted: ready, an error, or a scheduled sleep of the
given duration (ns). -/
inductive PollAction where
  | ready : PollAction
  | errTimeout : PollAction
  | errRateLimited (retry_after : ℕ) : PollAction
  | sleepFor (d : ℕ) : PollAction
deriving DecidableEq, Repr

/-- The limiter-consulting fragment of `RateLimitService::poll_ready`
(tower-shot/src/service.rs lines 140-201), for a poll with no pending sleep,
no permit yet, and a ready inner service. `timeout` is the configured
deadline, `elapsed` the value of `wait_start.elapsed()` at this poll (0 when
`wait_start` was just inserted), `lim` the strategy's answer. The code first
fails with `Timeout` when the deadline is already exhausted; on `Reject` it
fails with `RateLimited` in fail-fast mode, and otherwise schedules a sleep
of `min(retry_after, remaining_deadline)` (failing with `Timeout` when no
deadline remains). -/
def poll_ready_consult (fail_fast : Bool) (timeout : Option ℕ) (elapsed : ℕ)
    (lim : Outcome) : PollAction :=
  let deadlineHit : Bool := match timeout with
    | some t => decide (elapsed ≥ t)
    | none => false
  if deadlineHit then PollAction.errTimeout
  else
    match lim with
    | Outcome.Admit => PollAction.ready
    | Outcome.Reject retry_after =>
      if fail_fast then PollAction.errRateLimited retry_after
      else
        match timeout with
        | some t =>
          let remaining := t - elapsed
          if remaining = 0 then PollAction.errTimeout
          else PollAction.sleepFor (min retry_after remaining)
        | none => PollAction.sleepFor retry_after

end TowerShot

/-- C7: when the strategy rejects during a readiness poll, fail-fast mode
resolves the poll with `RateLimited { retry_after }`; non-fail-fast mode with
a configured deadline schedules a sleep of `min(retry_after,
remaining_deadline)`, and resolves with `Timeout` instead of sleeping when
the deadline is already past. -/
theorem claim_C7_poll_ready_reject (r t elapsed : ℕ) :
    TowerShot.poll_ready_consult true none elapsed (Outcome.Reject r) =
      TowerShot.PollAction.errRateLimited r ∧
    (elapsed < t →
      TowerShot.poll_ready_consult true (some t) elapsed (Outcome.Reject r) =
        TowerShot.PollAction.errRateLimited r) ∧
    (t ≤ elapsed →
      TowerShot.poll_ready_consult false (some t) elapsed (Outcome.Reject r) =
        TowerShot.PollAction.errTimeout) ∧
    (elapsed < t →
      TowerShot.poll_ready_consult false (some t) elapsed (Outcome.Reject r) =
        TowerShot.PollAction.sleepFor (min r (t - elapsed))) := by
  refine ⟨rfl, fun h => ?_, fun h => ?_, fun h => ?_⟩
  · simp [TowerShot.poll_ready_consult, Nat.not_le.mpr h]
  · simp [TowerShot.poll_ready_consult, h]
  · simp only [TowerShot.poll_ready_consult, Nat.not_le.mpr h, if_false]
    have hrem : t - elapsed ≠ 0 := by omega
    simp [hrem]

/-- Witness for C7 at retry_after 5 ns, deadline 10 ns: a poll 3 ns in sleeps
for min(5, 7) = 5 ns; a poll 12 ns in resolves with Timeout. -/
theorem claim_C7_poll_ready_reject_witness :
    TowerShot.poll_ready_consult false (some 10) 3 (Outcome.Reject 5) =
      TowerShot.PollAction.sleepFor 5 ∧
    TowerShot.poll_ready_consult false (some 10) 12 (Outcome.Reject 5) =
      TowerShot.PollAction.errTimeout := by
  constructor
  · have h := (claim_C7_poll_ready_reject 5 10 3).2.2.2 (by decide)
    exact h.trans (by decide)
  · exact (claim_C7_poll_ready_reject 5 10 12).2.2.1 (by decide)

/-- C8 (failing input): a `ShotError::RateLimited` reaching the outer
error-mapping boundary of the latency discipline is NOT re-wrapped as
`Overloaded`: `map_overloaded` (utils.rs) re-wraps only the load-shed
`Overloaded` type, and the `ManagedLatencyLayer` closure propagates any
`ShotError` — including `RateLimited` — unchanged. With
`make_latency_svc`'s fail-fast rate-limit service, `poll_ready` yields
`Err(RateLimited)` on every rate rejection and load-shed propagates inner
poll errors, so the caller observes `RateLimited` where the documentation
of `make_latency_svc` promises `ShotError::Overloaded`. -/
theorem claim_C8_rate_limited_not_rewrapped :
    TowerShot.map_overloaded (TowerShot.BoxError.shot (TowerShot.ShotError.rateLimited 1000000)) =
      TowerShot.BoxError.shot (TowerShot.ShotError.rateLimited 1000000) ∧
    TowerShot.latency_map_err (TowerShot.BoxError.shot (TowerShot.ShotError.rateLimited 1000000)) =
      TowerShot.BoxError.shot (TowerShot.ShotError.rateLimited 1000000) ∧
    TowerShot.BoxError.shot (TowerShot.ShotError.rateLimited 1000000) ≠
      TowerShot.BoxError.shot TowerShot.ShotError.overloaded := by
  refine ⟨rfl, rfl, by decide⟩

/-- C6: TokenBucket(capacity 2, increment 1, period 100 ms), clock frozen at
construction: Admit, Admit, Reject (hint 100 ms); at 110 ms: Admit, then
Reject; the fractional 0.1-token remainder (10^8 units) carries forward but
is below one whole token (the final rejection hint is 90 ms). -/
theorem claim_C6_token_bucket_scenario :
    runTimes (fun s t => ShotLimit.TokenBucket.process s t)
        [0, 0, 0, 110000000, 110000000] (ShotLimit.TokenBucket.new 2 1 100000000) =
      [Outcome.Admit, Outcome.Admit, Outcome.Reject 100000000,
        Outcome.Admit, Outcome.Reject 90000000] ∧
    (stateAfterTimes (fun s t => ShotLimit.TokenBucket.process s t)
        [0, 0, 0, 110000000, 110000000] (ShotLimit.TokenBucket.new 2 1 100000000)).units =
      100000000 := by
  decide

/-- Helper: with the clock frozen at construction (now = 0), the FixedWindow
state after `i` sequential calls has `remaining = capacity - i` and an
untouched window. -/
theorem fw_frozen_state (C I : ℕ) : ∀ i,
    stateAfter (fun s => ShotLimit.FixedWindow.process s 0) i (ShotLimit.FixedWindow.new C I) =
      { capacity := C, remaining := C - i, expires := I, interval := I } := by
  intro i
  induction i with
  | zero => rfl
  | succ n ih =>
    simp only [stateAfter, ih]
    by_cases h : 0 < C - n
    · simp [ShotLimit.FixedWindow.process, h]
      omega
    · simp [ShotLimit.FixedWindow.process, h]
      omega

/-- Helper: FixedWindow under a frozen clock admits exactly the first
`capacity` calls. -/
theorem fw_frozen_outcome (C I i : ℕ) :
    outcomeAt (fun s => ShotLimit.FixedWindow.process s 0) (ShotLimit.FixedWindow.new C I) i =
      Outcome.Admit ↔ i < C := by
  unfold outcomeAt
  rw [fw_frozen_state]
  by_cases h : 0 < C - i
  · simp [ShotLimit.FixedWindow.process, h]
    omega
  · simp [ShotLimit.FixedWindow.process, h]
    omega

/-- Helper: with the clock frozen at construction (now = 0) and a positive
period, the shot-limit SlidingWindow never rotates, keeps `previous = 0`,
and its current count after `i` calls is `min i capacity`. -/
theorem sw_frozen_state (C P : ℕ) (hP : 0 < P) : ∀ i,
    stateAfter (fun s => ShotLimit.SlidingWindow.process s 0) i (ShotLimit.SlidingWindow.new C P) =
      { capacity := C, period_ns := P, current_count := min i C, previous_count := 0,
        current_window_start := 0 } := by
  intro i
  induction i with
  | zero => simp [stateAfter, ShotLimit.SlidingWindow.new]
  | succ n ih =>
    simp only [stateAfter, ih]
    by_cases h : min n C < C
    · simp [ShotLimit.SlidingWindow.process, ShotLimit.SlidingWindow.rotate,
        ShotLimit.SlidingWindow.estimate, hP.ne', h]
      omega
    · simp [ShotLimit.SlidingWindow.process, ShotLimit.SlidingWindow.rotate,
        ShotLimit.SlidingWindow.estimate, hP.ne', h]
      omega

/-- Helper: the shot-limit SlidingWindow under a frozen clock admits exactly
the first `capacity` calls. -/
theorem sw_frozen_outcome (C P i : ℕ) (hP : 0 < P) :
    outcomeAt (fun s => ShotLimit.SlidingWindow.process s 0) (ShotLimit.SlidingWindow.new C P) i =
      Outcome.Admit ↔ i < C := by
  unfold outcomeAt
  rw [sw_frozen_state C P hP]
  by_cases h : min i C < C
  · simp [ShotLimit.SlidingWindow.process, ShotLimit.SlidingWindow.rotate,
      ShotLimit.SlidingWindow.estimate, hP.ne', h]
    omega
  · simp [ShotLimit.SlidingWindow.process, ShotLimit.SlidingWindow.rotate,
      ShotLimit.SlidingWindow.estimate, hP.ne', h]
    omega

/-- Helper: with the clock frozen at construction (now = 0) no refill is ever
credited, so the TokenBucket state after `i` calls holds
`(capacity - i) * UNITS_SCALE` units. -/
theorem tb_frozen_state (C inc P : ℕ) : ∀ i,
    stateAfter (fun s => ShotLimit.TokenBucket.process s 0) i (ShotLimit.TokenBucket.new C inc P) =
      { ShotLimit.TokenBucket.new C inc P with
        units := (C - i) * ShotLimit.UNITS_SCALE } := by
  intro i
  induction i with
  | zero => simp [stateAfter, ShotLimit.TokenBucket.new]
  | succ n ih =>
    simp only [stateAfter, ih]
    by_cases h : C - n = 0
    · simp [ShotLimit.TokenBucket.process, ShotLimit.TokenBucket.new, ShotLimit.UNITS_SCALE, h]
      omega
    · simp [ShotLimit.TokenBucket.process, ShotLimit.TokenBucket.new, ShotLimit.UNITS_SCALE, h]
      omega

/-- Helper: the TokenBucket under a frozen clock admits exactly the first
`capacity` calls. -/
theorem tb_frozen_outcome (C inc P i : ℕ) :
    outcomeAt (fun s => ShotLimit.TokenBucket.process s 0) (ShotLimit.TokenBucket.new C inc P) i =
      Outcome.Admit ↔ i < C := by
  unfold outcomeAt
  rw [tb_frozen_state C inc P i]
  by_cases h : C - i = 0
  · simp [ShotLimit.TokenBucket.process, ShotLimit.TokenBucket.new, ShotLimit.UNITS_SCALE, h]
    omega
  · simp [ShotLimit.TokenBucket.process, ShotLimit.TokenBucket.new, ShotLimit.UNITS_SCALE, h]
    omega

/-- Helper: the arrival computation of `Gcra::process` is a maximum. -/
theorem gcra_arrival (now tat : ℕ) : (if now > tat then now else tat) = max now tat := by
  split <;> omega

/-- Helper: closed form of one `Gcra::process` call. -/
theorem gcra_process_eq (e p tat now : ℕ) :
    ShotLimit.Gcra.process
        { emission_interval_ns := e, delay_tolerance_ns := p, tat := tat } now =
      if max now tat + e > now + p then
        (Outcome.Reject (max now tat + e - (now + p)),
          { emission_interval_ns := e, delay_tolerance_ns := p, tat := tat })
      else
        (Outcome.Admit,
          { emission_interval_ns := e, delay_tolerance_ns := p, tat := max now tat + e }) := by
  simp only [ShotLimit.Gcra.process, gcra_arrival]

/-- Helper: with the clock frozen at `t` and `0 < e ≤ p`, the GCRA TAT after
`i + 1` calls from a fresh state is `t + min (i+1) (p / e) * e`. -/
theorem gcra_frozen_state (e p t : ℕ) (he : 0 < e) (hep : e ≤ p) : ∀ i,
    stateAfter (fun s => ShotLimit.Gcra.process s t) (i + 1)
        { emission_interval_ns := e, delay_tolerance_ns := p, tat := 0 } =
      { emission_interval_ns := e, delay_tolerance_ns := p,
        tat := t + min (i + 1) (p / e) * e } := by
  intro i
  induction i with
  | zero =>
    simp only [stateAfter]
    rw [gcra_process_eq]
    have hmax : max t 0 = t := by omega
    rw [hmax, if_neg (by omega : ¬ (t + e > t + p))]
    have hK : 1 ≤ p / e := (Nat.one_le_div_iff he).mpr hep
    rw [min_eq_left hK, one_mul]
  | succ n ih =>
    simp only [stateAfter] at ih ⊢
    rw [ih, gcra_process_eq]
    have hKe : p / e * e ≤ p := Nat.div_mul_le_self p e
    have hmod : p < p / e * e + e := by
      have h1 := Nat.div_add_mod' p e
      have h2 := Nat.mod_lt p he
      omega
    rcases lt_or_ge (n + 1) (p / e) with hlt | hge
    · rw [min_eq_left hlt.le, min_eq_left (by omega : n + 1 + 1 ≤ p / e)]
      have hmax : max t (t + (n + 1) * e) = t + (n + 1) * e := by omega
      rw [hmax]
      have hc : ¬ (t + (n + 1) * e + e > t + p) := by
        have h3 : (n + 2) * e ≤ p / e * e := mul_le_mul_right' (by omega : n + 2 ≤ p / e) e
        have h4 : (n + 2) * e = (n + 1) * e + e := by ring
        omega
      rw [if_neg hc]
      have h5 : (n + 1 + 1) * e = (n + 1) * e + e := by ring
      simp [ShotLimit.Gcra.mk.injEq, h5]
      omega
    · rw [min_eq_right hge, min_eq_right (by omega : p / e ≤ n + 1 + 1)]
      have hmax : max t (t + p / e * e) = t + p / e * e := by omega
      rw [hmax, if_pos (by omega : t + p / e * e + e > t + p)]

/-- Helper: with the clock frozen at `t` and `0 < e ≤ p`, a fresh GCRA admits
exactly the first `p / e` calls. -/
theorem gcra_frozen_outcome (e p t i : ℕ) (he : 0 < e) (hep : e ≤ p) :
    outcomeAt (fun s => ShotLimit.Gcra.process s t)
        { emission_interval_ns := e, delay_tolerance_ns := p, tat := 0 } i = Outcome.Admit ↔
      i < p / e := by
  cases i with
  | zero =>
    unfold outcomeAt
    simp only [stateAfter]
    rw [gcra_process_eq]
    have hmax : max t 0 = t := by omega
    rw [hmax, if_neg (by omega : ¬ (t + e > t + p))]
    have hK : 1 ≤ p / e := (Nat.one_le_div_iff he).mpr hep
    simp
    omega
  | succ n =>
    unfold outcomeAt
    rw [gcra_frozen_state e p t he hep n]
    simp only [gcra_process_eq]
    have hKe : p / e * e ≤ p := Nat.div_mul_le_self p e
    have hmod : p < p / e * e + e := by
      have h1 := Nat.div_add_mod' p e
      have h2 := Nat.mod_lt p he
      omega
    rcases lt_or_ge (n + 1) (p / e) with hlt | hge
    · rw [min_eq_left hlt.le]
      have hmax : max t (t + (n + 1) * e) = t + (n + 1) * e := by omega
      rw [hmax]
      have hc : ¬ (t + (n + 1) * e + e > t + p) := by
        have h3 : (n + 2) * e ≤ p / e * e := mul_le_mul_right' (by omega : n + 2 ≤ p / e) e
        have h4 : (n + 2) * e = (n + 1) * e + e := by ring
        omega
      rw [if_neg hc]
      simp
      omega
    · rw [min_eq_right hge]
      have hmax : max t (t + p / e * e) = t + p / e * e := by omega
      rw [hmax, if_pos (by omega : t + p / e * e + e > t + p)]
      simp
      omega

/-- Helper: a GCRA built by `with_clock` whose period is a positive multiple
of its limit admits, at any frozen instant `t`, exactly the first `limit`
back-to-back calls. -/
theorem gcra_with_clock_frozen_outcome (L P t i : ℕ) (hL : 1 ≤ L) (hp : 0 < P)
    (hd : L ∣ P) :
    outcomeAt (fun s => ShotLimit.Gcra.process s t) (ShotLimit.Gcra.with_clock L P) i =
      Outcome.Admit ↔ i < L := by
  have he : 0 < P / L := Nat.div_pos (Nat.le_of_dvd hp hd) (by omega)
  have hep : P / L ≤ P := Nat.div_le_self P L
  have hout := gcra_frozen_outcome (P / L) P t i he hep
  have hK : P / (P / L) = L := by
    obtain ⟨k, hk⟩ := hd
    have hk0 : 0 < k := by
      rcases Nat.eq_zero_or_pos k with h0 | h0
      · subst h0
        simp at hk
        omega
      · exact h0
    subst hk
    rw [Nat.mul_div_cancel_left k (by omega : 0 < L), mul_comm L k,
      Nat.mul_div_cancel_left L hk0]
  rw [hK] at hout
  exact hout

/-- C1 (amended): with the clock frozen at the construction instant, each of
the four shot-limit strategies admits exactly its first `capacity` calls and
rejects every later call — FixedWindow for any interval, SlidingWindow for a
positive period, TokenBucket for any parameters, and GCRA provided the
period in nanoseconds is a positive multiple of the limit (the
counterexample shows the GCRA part of the original claim fails without that
proviso, because `emission_interval_ns = period_ns / limit` rounds down). -/
theorem claim_C1_frozen_burst_exact (C interval P_sw inc P_tb L P_g : ℕ)
    (_hC : 1 ≤ C) (hsw : 0 < P_sw) (hL : 1 ≤ L) (hg0 : 0 < P_g) (hgd : L ∣ P_g) :
    (∀ i, outcomeAt (fun s => ShotLimit.FixedWindow.process s 0)
        (ShotLimit.FixedWindow.new C interval) i = Outcome.Admit ↔ i < C) ∧
    (∀ i, outcomeAt (fun s => ShotLimit.SlidingWindow.process s 0)
        (ShotLimit.SlidingWindow.new C P_sw) i = Outcome.Admit ↔ i < C) ∧
    (∀ i, outcomeAt (fun s => ShotLimit.TokenBucket.process s 0)
        (ShotLimit.TokenBucket.new C inc P_tb) i = Outcome.Admit ↔ i < C) ∧
    (∀ i, outcomeAt (fun s => ShotLimit.Gcra.process s 0)
        (ShotLimit.Gcra.with_clock L P_g) i = Outcome.Admit ↔ i < L) :=
  ⟨fun i => fw_frozen_outcome C interval i,
    fun i => sw_frozen_outcome C P_sw i hsw,
    fun i => tb_frozen_outcome C inc P_tb i,
    fun i => gcra_with_clock_frozen_outcome L P_g 0 i hL hg0 hgd⟩

/-- Witness for C1 at capacity 2 (GCRA: limit 2, period 6 ns): the second
call admits and the third does not. -/
theorem claim_C1_frozen_burst_exact_witness :
    outcomeAt (fun s => ShotLimit.FixedWindow.process s 0) (ShotLimit.FixedWindow.new 2 7) 1 =
      Outcome.Admit ∧
    outcomeAt (fun s => ShotLimit.Gcra.process s 0) (ShotLimit.Gcra.with_clock 2 6) 2 ≠
      Outcome.Admit := by
  obtain ⟨h1, h2, h3, h4⟩ :=
    claim_C1_frozen_burst_exact 2 7 5 1 5 2 6 (by decide) (by decide) (by decide) (by decide)
      (by decide)
  exact ⟨(h1 1).mpr (by decide), fun hc => absurd ((h4 2).mp hc) (by decide)⟩

/-- C1 (counterexample): GCRA constructed with limit 5 and period 9 ns has
emission interval 9 / 5 = 1 ns, so with a frozen clock the sixth
back-to-back call — which the claim requires to be a Reject — is admitted
(and so is even the ninth). -/
theorem claim_C1_counterexample_gcra_indivisible :
    outcomeAt (fun s => ShotLimit.Gcra.process s 0) (ShotLimit.Gcra.with_clock 5 9) 5 =
      Outcome.Admit ∧
    outcomeAt (fun s => ShotLimit.Gcra.process s 0) (ShotLimit.Gcra.with_clock 5 9) 8 =
      Outcome.Admit := by
  decide

/-- C2 (amended): a GCRA `process` call at `now` with stored `tat` is
admitted iff `next_tat = max(now, tat) + emission_interval` does not exceed
`now + delay_tolerance` (the rejection test is strict), and every rejection
carries `retry_after = next_tat - (now + delay_tolerance)`; from a fresh
limiter, at any frozen instant, exactly `limit` back-to-back calls are
admitted and the next one rejected, provided the period in nanoseconds is a
positive multiple of the limit (the counterexample shows this count is wrong
otherwise). -/
theorem claim_C2_gcra_tat_test (limit period : ℕ) (hL : 1 ≤ limit) (hp : 0 < period)
    (hd : limit ∣ period) :
    (∀ (s : ShotLimit.Gcra) (now : ℕ),
      ((ShotLimit.Gcra.process s now).1 = Outcome.Admit ↔
        max now s.tat + s.emission_interval_ns ≤ now + s.delay_tolerance_ns) ∧
      (now + s.delay_tolerance_ns < max now s.tat + s.emission_interval_ns →
        (ShotLimit.Gcra.process s now).1 =
          Outcome.Reject
            (max now s.tat + s.emission_interval_ns - (now + s.delay_tolerance_ns)))) ∧
    (∀ t i, outcomeAt (fun s => ShotLimit.Gcra.process s t)
        (ShotLimit.Gcra.with_clock limit period) i = Outcome.Admit ↔ i < limit) := by
  constructor
  · intro s now
    obtain ⟨e, p, tat⟩ := s
    dsimp only
    constructor
    · by_cases hc : max now tat + e > now + p
      · rw [gcra_process_eq, if_pos hc]
        simp
        omega
      · rw [gcra_process_eq, if_neg hc]
        simp
        omega
    · intro hlt
      rw [gcra_process_eq, if_pos (by omega : max now tat + e > now + p)]
  · intro t i
    exact gcra_with_clock_frozen_outcome limit period t i hL hp hd

/-- Witness for C2 at limit 2, period 6 ns, frozen instant 3 ns: the second
back-to-back call admits and the third does not. -/
theorem claim_C2_gcra_tat_test_witness :
    outcomeAt (fun s => ShotLimit.Gcra.process s 3) (ShotLimit.Gcra.with_clock 2 6) 1 =
      Outcome.Admit ∧
    outcomeAt (fun s => ShotLimit.Gcra.process s 3) (ShotLimit.Gcra.with_clock 2 6) 2 ≠
      Outcome.Admit := by
  obtain ⟨ha, hb⟩ := claim_C2_gcra_tat_test 2 6 (by decide) (by decide) (by decide)
  exact ⟨(hb 3 1).mpr (by decide), fun hc => absurd ((hb 3 2).mp hc) (by decide)⟩

/-- C2 (counterexample): GCRA with limit 4 and period 7 ns (emission interval
7 / 4 = 1 ns) admits the fifth back-to-back call from a fresh limiter,
although the claim requires the (L+1)-th call to be rejected. -/
theorem claim_C2_counterexample_burst_count :
    outcomeAt (fun s => ShotLimit.Gcra.process s 0) (ShotLimit.Gcra.with_clock 4 7) 4 =
      Outcome.Admit := by
  decide

/-- C3 (amended): in the rate-limiting-lib SlidingWindow, every `process`
call that rejects carries the §4.4 hint (`spec44Hint`): when the rejecting
decision saw `previous = 0` the hint is exactly `expires - now`; otherwise
it strictly exceeds `(estimate - capacity) * interval / previous` (the 1 ms
buffer) and is positive. The shot-limit variant violates §4.4 (see the
counterexample): its hint is `ceil((estimate - capacity) / capacity *
period)`, which is 0 whenever the estimate equals the capacity. -/
theorem claim_C3_sliding_retry_hint (s : RateLimitingLib.SlidingWindow) (now h : ℕ)
    (hr : (RateLimitingLib.SlidingWindow.process s now).1 = Outcome.Reject h) :
    spec44Hint (s.rotate now).previous (s.rotate now).capacity
      ((s.rotate now).guesstimate now) (s.rotate now).interval
      (s.rotate now).expires now h := by
  set r := s.rotate now with hrdef
  by_cases hg : (r.capacity : ℚ) ≤ r.guesstimate now
  · have hh : h = r.calculate_retry_after (r.guesstimate now) now r.expires := by
      simp [RateLimitingLib.SlidingWindow.process, ← hrdef, hg] at hr
      exact hr.symm
    subst hh
    simp only [spec44Hint, RateLimitingLib.SlidingWindow.calculate_retry_after]
    by_cases hp : r.previous = 0
    · simp [hp]
    · simp only [hp, if_false]
      constructor
      · set x : ℚ :=
          (r.guesstimate now - (r.capacity : ℚ)) * (r.interval : ℚ) / (r.previous : ℚ)
          with hxdef
        have hx0 : 0 ≤ x := by
          apply div_nonneg
          · exact mul_nonneg (sub_nonneg.mpr hg) (Nat.cast_nonneg _)
          · exact Nat.cast_nonneg _
        have hfl : 0 ≤ ⌊x⌋ := Int.floor_nonneg.mpr hx0
        have hlt := Int.lt_floor_add_one x
        have hcast : ((⌊x⌋.toNat : ℕ) : ℚ) = ((⌊x⌋ : ℤ) : ℚ) := by
          exact_mod_cast Int.toNat_of_nonneg hfl
        push_cast
        rw [hcast]
        linarith
      · omega
  · exfalso
    simp [RateLimitingLib.SlidingWindow.process, ← hrdef, hg] at hr

/-- Witness for C3 at the rate-limiting-lib SlidingWindow with capacity 1,
interval 100 ns, one admission taken (current = 1): a second call at now = 0
rejects with hint `expires - now = 100`, which satisfies §4.4. -/
theorem claim_C3_sliding_retry_hint_witness :
    spec44Hint
      ((RateLimitingLib.SlidingWindow.rotate ⟨1, 1, 0, 100, 100⟩ 0).previous)
      ((RateLimitingLib.SlidingWindow.rotate ⟨1, 1, 0, 100, 100⟩ 0).capacity)
      (RateLimitingLib.SlidingWindow.guesstimate
        (RateLimitingLib.SlidingWindow.rotate ⟨1, 1, 0, 100, 100⟩ 0) 0)
      ((RateLimitingLib.SlidingWindow.rotate ⟨1, 1, 0, 100, 100⟩ 0).interval)
      ((RateLimitingLib.SlidingWindow.rotate ⟨1, 1, 0, 100, 100⟩ 0).expires) 0 100 :=
  claim_C3_sliding_retry_hint ⟨1, 1, 0, 100, 100⟩ 0 100 (by
    norm_num [RateLimitingLib.SlidingWindow.process, RateLimitingLib.SlidingWindow.rotate,
      RateLimitingLib.SlidingWindow.guesstimate,
      RateLimitingLib.SlidingWindow.calculate_retry_after])

/-- C3 (counterexample): in the shot-limit SlidingWindow with capacity 1 and
period 100 ns, the second frozen-clock call rejects with retry_after 0,
while §4.4 (previous = 0 case) prescribes the time to the window boundary,
`window_start + period - now = 100` — and the claim covers every reject of
`process()`. -/
theorem claim_C3_counterexample_shot_limit_hint :
    (ShotLimit.SlidingWindow.process
        ((ShotLimit.SlidingWindow.new 1 100).process 0).2 0).1 = Outcome.Reject 0 ∧
    (ShotLimit.SlidingWindow.process
        ((ShotLimit.SlidingWindow.new 1 100).process 0).2 0).2.current_window_start +
      (ShotLimit.SlidingWindow.process
        ((ShotLimit.SlidingWindow.new 1 100).process 0).2 0).2.period_ns - 0 = 100 ∧
    (0 : ℕ) ≠ 100 := by
  refine ⟨?_, ?_, by decide⟩
  · norm_num [ShotLimit.SlidingWindow.process, ShotLimit.SlidingWindow.rotate,
      ShotLimit.SlidingWindow.estimate, ShotLimit.SlidingWindow.new]
  · norm_num [ShotLimit.SlidingWindow.process, ShotLimit.SlidingWindow.rotate,
      ShotLimit.SlidingWindow.estimate, ShotLimit.SlidingWindow.new]

/-- C4 (amended): after exhausting the capacity with frozen-clock calls, a
single `process` call strictly past the stored `expires` boundary rotates
the window to the aligned boundary `(now / interval + 1) * interval` and
admits. (The original claim said this happens already at `now = expires`;
the counterexample shows the code's rotation test `now > expires` is strict,
so the call at the boundary itself still rejects.) -/
theorem claim_C4_fixed_window_recovery (C I now : ℕ) (hC : 1 ≤ C) (hnow : I < now) :
    ShotLimit.FixedWindow.process
        (stateAfter (fun s => ShotLimit.FixedWindow.process s 0) C
          (ShotLimit.FixedWindow.new C I)) now =
      (Outcome.Admit,
        { capacity := C, remaining := C - 1, expires := (now / I + 1) * I, interval := I }) := by
  rw [fw_frozen_state]
  have hCC : C - C = 0 := Nat.sub_self C
  rw [hCC]
  have hC0 : 0 < C := hC
  simp [ShotLimit.FixedWindow.process, hnow, hC0]

/-- Witness for C4: capacity 1, interval 10 ns, one exhausting call; a call
at now = 11 (strictly past the boundary) admits and re-anchors expires
to 20. -/
theorem claim_C4_fixed_window_recovery_witness :
    ShotLimit.FixedWindow.process
        (stateAfter (fun s => ShotLimit.FixedWindow.process s 0) 1
          (ShotLimit.FixedWindow.new 1 10)) 11 =
      (Outcome.Admit,
        { capacity := 1, remaining := 0, expires := 20, interval := 10 }) := by
  have h := claim_C4_fixed_window_recovery 1 10 11 (by decide) (by decide)
  exact h.trans (by decide)

/-- C4 (counterexample): FixedWindow with capacity 1 and interval 10 ns,
exhausted at construction; the call made when the clock has advanced by
exactly one interval (now = 10 = stored expires) does NOT admit — the
rotation test is strict — and rejects with retry_after 0. -/
theorem claim_C4_counterexample_boundary_call :
    (ShotLimit.FixedWindow.process
        ((ShotLimit.FixedWindow.new 1 10).process 0).2 10).1 = Outcome.Reject 0 ∧
    (ShotLimit.FixedWindow.process
        ((ShotLimit.FixedWindow.new 1 10).process 0).2 10).1 ≠ Outcome.Admit := by
  decide

/-- C5: both SlidingWindow variants preserve the rotation invariant. In the
shot-limit variant (boundary = window start), a rotation with exactly one
period elapsed moves `current` into `previous` and zeroes `current`, and a
rotation with two or more periods elapsed zeroes both. The rate-limiting-lib
variant (boundary = `expires`) behaves identically via its
`intervals_passed` computation. Both statements describe the counter state
before any admission increment. -/
theorem claim_C5_rotation_invariant :
    (∀ (s : ShotLimit.SlidingWindow) (now : ℕ),
      s.current_window_start + s.period_ns ≤ now →
      ((now < s.current_window_start + 2 * s.period_ns →
        (s.rotate now).previous_count = s.current_count ∧ (s.rotate now).current_count = 0) ∧
       (s.current_window_start + 2 * s.period_ns ≤ now →
        (s.rotate now).previous_count = 0 ∧ (s.rotate now).current_count = 0))) ∧
    (∀ (s : RateLimitingLib.SlidingWindow) (now : ℕ),
      0 < s.interval → s.expires ≤ now →
      ((now < s.expires + s.interval →
        (s.rotate now).previous = s.current ∧ (s.rotate now).current = 0) ∧
       (s.expires + s.interval ≤ now →
        (s.rotate now).previous = 0 ∧ (s.rotate now).current = 0))) := by
  constructor
  · intro s now h1
    constructor
    · intro h2
      have h2' : ¬ (s.current_window_start + 2 * s.period_ns ≤ now) := by omega
      simp [ShotLimit.SlidingWindow.rotate, h1, h2']
    · intro h2
      simp [ShotLimit.SlidingWindow.rotate, h1, h2]
  · intro s now hI h1
    constructor
    · intro h2
      have hdiv : (now - s.expires) / s.interval = 0 := Nat.div_eq_of_lt (by omega)
      simp [RateLimitingLib.SlidingWindow.rotate, h1, hdiv]
    · intro h2
      have hdiv : 1 ≤ (now - s.expires) / s.interval :=
        (Nat.one_le_div_iff hI).mpr (by omega)
      have hne : ¬ ((now - s.expires) / s.interval + 1 = 1) := by omega
      simp [RateLimitingLib.SlidingWindow.rotate, h1, hne]

/-- Witness for C5: a one-period rotation in each variant. Shot-limit state
(capacity 5, period 10, current 3, previous 7, start 0) rotated at now = 12
yields previous = 3, current = 0; rate-limiting-lib state (capacity 5,
current 4, previous 9, interval 10, expires 10) rotated at now = 12 yields
previous = 4, current = 0. -/
theorem claim_C5_rotation_invariant_witness :
    (ShotLimit.SlidingWindow.rotate ⟨5, 10, 3, 7, 0⟩ 12).previous_count = 3 ∧
    (ShotLimit.SlidingWindow.rotate ⟨5, 10, 3, 7, 0⟩ 12).current_count = 0 ∧
    (RateLimitingLib.SlidingWindow.rotate ⟨5, 4, 9, 10, 10⟩ 12).previous = 4 ∧
    (RateLimitingLib.SlidingWindow.rotate ⟨5, 4, 9, 10, 10⟩ 12).current = 0 := by
  obtain ⟨h1, h2⟩ := claim_C5_rotation_invariant
  have hA := (h1 ⟨5, 10, 3, 7, 0⟩ 12 (by decide)).1 (by decide)
  have hB := (h2 ⟨5, 4, 9, 10, 10⟩ 12 (by decide) (by decide)).1 (by decide)
  exact ⟨hA.1, hA.2, hB.1, hB.2⟩

/-- C9: TokenBucket and GCRA rejections are pure reads: a `process` call
that returns Reject leaves the entire state (TokenBucket `units` and
`last_update_ns`, GCRA `tat`) unchanged. -/
theorem claim_C9_reject_pure_read (tb : ShotLimit.TokenBucket) (g : ShotLimit.Gcra)
    (now1 now2 r1 r2 : ℕ)
    (h1 : (ShotLimit.TokenBucket.process tb now1).1 = Outcome.Reject r1)
    (h2 : (ShotLimit.Gcra.process g now2).1 = Outcome.Reject r2) :
    (ShotLimit.TokenBucket.process tb now1).2 = tb ∧
    (ShotLimit.Gcra.process g now2).2 = g := by
  constructor
  · by_cases hc : min tb.capacity_units
        (tb.units + (now1 - tb.last_update_ns) * tb.rate_num / tb.rate_den) <
        ShotLimit.UNITS_SCALE
    · simp [ShotLimit.TokenBucket.process, hc]
    · exfalso
      simp [ShotLimit.TokenBucket.process, hc] at h1
  · obtain ⟨e, p, tat⟩ := g
    by_cases hc : max now2 tat + e > now2 + p
    · rw [gcra_process_eq, if_pos hc]
    · exfalso
      rw [gcra_process_eq, if_neg hc] at h2
      simp at h2

/-- Witness for C9: a drained TokenBucket (capacity 1 token, rate 10^9
units per 5 ns, 0 units left) rejects at now = 0 with hint 5 ns and keeps
its state; a GCRA with emission 2, tolerance 3, tat = 4 rejects at now = 0
with hint 3 ns and keeps its state. -/
theorem claim_C9_reject_pure_read_witness :
    (ShotLimit.TokenBucket.process ⟨1000000000, 1000000000, 5, 0, 0⟩ 0).2 =
      (⟨1000000000, 1000000000, 5, 0, 0⟩ : ShotLimit.TokenBucket) ∧
    (ShotLimit.Gcra.process ⟨2, 3, 4⟩ 0).2 = (⟨2, 3, 4⟩ : ShotLimit.Gcra) :=
  claim_C9_reject_pure_read ⟨1000000000, 1000000000, 5, 0, 0⟩ ⟨2, 3, 4⟩ 0 0 5 3
    (by decide) (by decide)

/-- Helper: a GCRA with zero emission interval admits every call of any
time-monotone trace whose first reading is at or after the stored TAT. -/
theorem gcra_zero_emission_run (p : ℕ) : ∀ (ts : List ℕ) (tat : ℕ),
    List.Chain (· ≤ ·) tat ts →
    runTimes (fun s t => ShotLimit.Gcra.process s t) ts
        { emission_interval_ns := 0, delay_tolerance_ns := p, tat := tat } =
      List.replicate ts.length Outcome.Admit := by
  intro ts
  induction ts with
  | nil =>
    intro tat _
    rfl
  | cons t ts ih =>
    intro tat h
    cases h with
    | cons hle hchain =>
      simp only [runTimes]
      rw [gcra_process_eq]
      simp only [Nat.add_zero]
      have hc : ¬ (max t tat > t + p) := by omega
      rw [if_neg hc]
      have hmax : max t tat = t := by omega
      rw [hmax]
      simp only [List.length_cons, List.replicate_succ]
      exact congrArg (List.cons Outcome.Admit) (ih t hchain)

/-- C10: a GCRA constructed with `limit` strictly greater than the period in
nanoseconds has `emission_interval_ns = period_ns / limit = 0`, and then
every `process` call of every reachable execution — any monotone sequence of
clock readings starting from construction — returns Admit; the limiter never
rejects. -/
theorem claim_C10_zero_emission_always_admits (limit period : ℕ) (hlp : period < limit)
    (ts : List ℕ) (hts : ts.Chain' (· ≤ ·)) :
    runTimes (fun s t => ShotLimit.Gcra.process s t) ts
        (ShotLimit.Gcra.with_clock limit period) =
      List.replicate ts.length Outcome.Admit := by
  have he : period / limit = 0 := Nat.div_eq_of_lt hlp
  unfold ShotLimit.Gcra.with_clock
  rw [he]
  cases ts with
  | nil => rfl
  | cons t ts' =>
    exact gcra_zero_emission_run period (t :: ts') 0
      (List.Chain.cons (Nat.zero_le t) hts)

/-- Witness for C10: limit 3, period 2 ns; four calls at times 0, 5, 5, 7
are all admitted. -/
theorem claim_C10_zero_emission_always_admits_witness :
    runTimes (fun s t => ShotLimit.Gcra.process s t) [0, 5, 5, 7]
        (ShotLimit.Gcra.with_clock 3 2) =
      [Outcome.Admit, Outcome.Admit, Outcome.Admit, Outcome.Admit] := by
  have h := claim_C10_zero_emission_always_admits 3 2 (by decide) [0, 5, 5, 7]
    (by simp [List.chain'_cons])
  exact h.trans (by decide)
